import Mathlib

/-!
Formal model of the wildfire PM2.5 / solar-potential-loss pipeline.

The development shallowly embeds the computational core of the repository:

* `wildfire_pm25_processing.py` — longitude normalization (`fix_lon`), the
  time collapse of the scenario loader, the solar potential model
  (`calculate_solar_potential_change`), the wildfire attribution and the
  temporal differencers assembled by `main`;
* `wildfire_pm25_visualization.py` — the six fixed regions and the
  latitude-weighted regional aggregator (`calculate_regional_means`);
* `run_visualization.py` — the CLI argument handling and exit-code contract.

Machine floating-point values are idealized as rationals (`ℚ`); decimal
literals such as `17.71` denote the exact rational, and the one NaN-producing
path (mean over an empty time axis) is modelled with `Option`. The latitude
cosine weight of the regional aggregator is the real `Real.cos` applied to the
latitude converted to radians.
-/

namespace WildfireSolarLoss

/-! ### Grids and the solar potential model (wildfire_pm25_processing.py) -/

/-- A two-dimensional gridded field: cell values indexed by
(latitude, longitude), both in floating-point degrees (idealized as `ℚ`). -/
abbrev PMGrid : Type := ℚ → ℚ → ℚ

/-- Elementwise subtraction of two grids, as produced by `baseline - nofire`
and by the temporal differencers in `main` (xarray aligns on the shared
coordinates and subtracts cell by cell). -/
def gridSub (a b : PMGrid) : PMGrid := fun la lo => a la lo - b la lo

/-- Embeds `calculate_solar_potential_change` (wildfire_pm25_processing.py,
lines 111-133): `uncapped_change = -0.48 * pm25_data / 17.71 * 100`, then
`xr.where(uncapped_change < -100, -100, uncapped_change)`, elementwise. -/
def calculate_solar_potential_change (pm25_data : PMGrid) : PMGrid :=
  fun la lo =>
    let uncapped_change : ℚ := -0.48 * pm25_data la lo / 17.71 * 100
    if uncapped_change < -100 then -100 else uncapped_change

/-- C1: for every input PM2.5 field and every grid cell with value `p`, the
solar potential model returns exactly `-0.48*p/17.71*100` when that quantity
is at least `-100` (in particular the boundary value `-100` itself passes
through unmodified), and returns exactly `-100` when that quantity is below
`-100`. -/
theorem solar_potential_change_exact (f : PMGrid) (la lo : ℚ) :
    ((-100 : ℚ) ≤ -0.48 * f la lo / 17.71 * 100 →
      calculate_solar_potential_change f la lo = -0.48 * f la lo / 17.71 * 100) ∧
    (-0.48 * f la lo / 17.71 * 100 < (-100 : ℚ) →
      calculate_solar_potential_change f la lo = -100) := by
  simp only [calculate_solar_potential_change]
  constructor
  · intro h
    rw [if_neg (not_lt.mpr h)]
  · intro h
    rw [if_pos h]

/-- Witness for C1: a cell value of 1 μg/m³ is far from the cap and passes
through the linear map, while a cell value of 4000 μg/m³ drives the linear
expression below -100 and is clamped. -/
theorem solar_potential_change_exact_witness :
    ((-100 : ℚ) ≤ -0.48 * (1 : ℚ) / 17.71 * 100 ∧
      calculate_solar_potential_change (fun _ _ => 1) 0 0 = -0.48 * (1 : ℚ) / 17.71 * 100) ∧
    (-0.48 * (4000 : ℚ) / 17.71 * 100 < (-100 : ℚ) ∧
      calculate_solar_potential_change (fun _ _ => 4000) 0 0 = -100) :=
  ⟨⟨by norm_num, (solar_potential_change_exact (fun _ _ => 1) 0 0).1 (by norm_num)⟩,
   ⟨by norm_num, (solar_potential_change_exact (fun _ _ => 4000) 0 0).2 (by norm_num)⟩⟩

/-- C4 counterexample: a wildfire field (baseline minus no-fire) holding the
negative value -1 μg/m³ yields a strictly positive solar potential change, so
the produced field is not bounded above by 0%. -/
theorem solar_potential_not_bounded_above :
    0 < calculate_solar_potential_change (gridSub (fun _ _ => 0) (fun _ _ => 1)) 0 0 := by
  norm_num [calculate_solar_potential_change, gridSub]

/-- C4 (amended): every solar potential field derived from a wildfire field is
floored at -100% at every grid cell, and is bounded above by 0% at every cell
where the wildfire field (baseline minus no-fire) is non-negative; cells where
the no-fire run exceeds the baseline can produce positive values. -/
theorem solar_potential_bounds (b n : PMGrid) (la lo : ℚ) :
    -100 ≤ calculate_solar_potential_change (gridSub b n) la lo ∧
    (n la lo ≤ b la lo → calculate_solar_potential_change (gridSub b n) la lo ≤ 0) := by
  simp only [calculate_solar_potential_change, gridSub]
  constructor
  · split
    · exact le_refl _
    · next h => exact le_of_not_lt h
  · intro h
    have hd : (0 : ℚ) ≤ b la lo - n la lo := sub_nonneg.mpr h
    have h1 : -0.48 * (b la lo - n la lo) ≤ 0 :=
      mul_nonpos_of_nonpos_of_nonneg (by norm_num) hd
    have h2 : -0.48 * (b la lo - n la lo) / 17.71 ≤ 0 :=
      div_nonpos_iff.mpr (Or.inr ⟨h1, by norm_num⟩)
    have h3 : -0.48 * (b la lo - n la lo) / 17.71 * 100 ≤ 0 :=
      mul_nonpos_of_nonpos_of_nonneg h2 (by norm_num)
    split
    · norm_num
    · exact h3

/-- Witness for C4 (amended): with baseline 1 and no-fire 0 the wildfire cell
is non-negative, and the resulting change lies in [-100, 0]. -/
theorem solar_potential_bounds_witness :
    ((fun (_ _ : ℚ) => (0 : ℚ)) 0 0 ≤ (fun (_ _ : ℚ) => (1 : ℚ)) 0 0 ∧
      -100 ≤ calculate_solar_potential_change
        (gridSub (fun _ _ => 1) (fun _ _ => 0)) 0 0) ∧
    calculate_solar_potential_change (gridSub (fun _ _ => 1) (fun _ _ => 0)) 0 0 ≤ 0 :=
  ⟨⟨by norm_num, (solar_potential_bounds (fun _ _ => 1) (fun _ _ => 0) 0 0).1⟩,
   (solar_potential_bounds (fun _ _ => 1) (fun _ _ => 0) 0 0).2 (by norm_num)⟩

/-! ### Longitude normalization (`fix_lon`, wildfire_pm25_processing.py 33-62) -/

/-- A grid as stored along its longitude dimension: one
(longitude coordinate, column) pair per longitude value, where the column of
type `β` holds everything indexed by the remaining dimensions (the cell values
over latitude). -/
abbrev LonGrid (β : Type) : Type := List (ℚ × β)

/-- Embeds `xr.where(ds[lon] > 180, ds[lon] - 360, ds[lon])`: the longitude
adjustment applied to every coordinate value. -/
def adjustLon (v : ℚ) : ℚ := if v > 180 then v - 360 else v

/-- Comparison on the adjusted longitude coordinate, used by `sortby`. -/
def lonLe {β : Type} (a b : ℚ × β) : Prop := a.1 ≤ b.1

instance {β : Type} : DecidableRel (@lonLe β) :=
  fun a b => inferInstanceAs (Decidable (a.1 ≤ b.1))

instance {β : Type} : IsTotal (ℚ × β) lonLe :=
  ⟨fun a b => le_total a.1 b.1⟩

instance {β : Type} : IsTrans (ℚ × β) lonLe :=
  ⟨fun _ _ _ h1 h2 => le_trans h1 h2⟩

/-- Embeds `fix_lon`: relabel every longitude by `adjustLon`, then reorder the
grid cells to ascending adjusted longitude (`swap_dims` + `sortby` +
`drop_vars` + `rename` amount to exactly this relabel-and-sort on the
longitude dimension). -/
def fix_lon {β : Type} (ds : LonGrid β) : LonGrid β :=
  List.insertionSort lonLe (ds.map (fun p => (adjustLon p.1, p.2)))

/-- On [0, 360) the longitude adjustment is injective: values at most 180 stay
non-negative and values above 180 become negative. -/
theorem adjustLon_injOn {a b : ℚ} (ha0 : 0 ≤ a) (ha1 : a < 360) (hb0 : 0 ≤ b)
    (hb1 : b < 360) (h : adjustLon a = adjustLon b) : a = b := by
  unfold adjustLon at h
  split_ifs at h with h1 h2 h2
  · linarith
  · linarith
  · linarith
  · exact h

/-- A list ordered weakly and without duplicates is ordered strictly. -/
theorem pairwise_lt_of_le_of_nodup {l : List ℚ} (hle : l.Pairwise (· ≤ ·))
    (hnd : l.Nodup) : l.Pairwise (· < ·) := by
  induction l with
  | nil => exact List.Pairwise.nil
  | cons a t ih =>
    rcases List.pairwise_cons.mp hle with ⟨h1, h2⟩
    rcases List.pairwise_cons.mp hnd with ⟨h3, h4⟩
    exact List.pairwise_cons.mpr
      ⟨fun b hb => lt_of_le_of_ne (h1 b hb) (h3 b hb), ih h2 h4⟩

/-- C2: on a grid whose longitudes are distinct and lie in [0, 360), `fix_lon`
returns a grid whose longitude sequence is strictly ascending, whose longitude
values are exactly the adjusted input longitudes (`v - 360` for `v > 180`,
else `v`), and which is a permutation of the relabelled input grid — every
column keeps its original (lat, original-lon) cell values, so the operation is
a pure relabel-and-reorder and never resamples. -/
theorem fix_lon_normalizes {β : Type} (g : LonGrid β)
    (hnodup : (g.map Prod.fst).Nodup)
    (hrange : ∀ v ∈ g.map Prod.fst, 0 ≤ v ∧ v < 360) :
    ((fix_lon g).map Prod.fst).Pairwise (· < ·) ∧
    List.Perm ((fix_lon g).map Prod.fst) ((g.map Prod.fst).map adjustLon) ∧
    List.Perm (fix_lon g) (g.map (fun p => (adjustLon p.1, p.2))) := by
  have hperm : List.Perm (fix_lon g) (g.map (fun p => (adjustLon p.1, p.2))) :=
    List.perm_insertionSort _ _
  have hkeys : List.Perm ((fix_lon g).map Prod.fst)
      ((g.map Prod.fst).map adjustLon) := by
    have := hperm.map Prod.fst
    simpa [List.map_map, Function.comp] using this
  refine ⟨?_, hkeys, hperm⟩
  have hsorted : List.Sorted lonLe (fix_lon g) :=
    List.sorted_insertionSort _ _
  have hle : ((fix_lon g).map Prod.fst).Pairwise (· ≤ ·) :=
    List.pairwise_map.mpr hsorted
  have hnd2 : ((g.map Prod.fst).map adjustLon).Nodup := by
    refine List.Nodup.map_on ?_ hnodup
    intro x hx y hy hxy
    exact adjustLon_injOn (hrange x hx).1 (hrange x hx).2 (hrange y hy).1
      (hrange y hy).2 hxy
  have hnd : ((fix_lon g).map Prod.fst).Nodup := hkeys.nodup_iff.mpr hnd2
  exact pairwise_lt_of_le_of_nodup hle hnd

/-- Witness for C2: a two-column grid with longitudes 190 and 10; after
normalization the longitudes are -170 and 10, sorted ascending, with each
column still carried by its original longitude. -/
theorem fix_lon_normalizes_witness :
    (([((190 : ℚ), (1 : ℚ)), (10, 2)].map Prod.fst).Nodup ∧
      ∀ v ∈ [((190 : ℚ), (1 : ℚ)), (10, 2)].map Prod.fst, 0 ≤ v ∧ v < 360) ∧
    (((fix_lon [((190 : ℚ), (1 : ℚ)), (10, 2)]).map Prod.fst).Pairwise (· < ·) ∧
      List.Perm ((fix_lon [((190 : ℚ), (1 : ℚ)), (10, 2)]).map Prod.fst)
        (([((190 : ℚ), (1 : ℚ)), (10, 2)].map Prod.fst).map adjustLon) ∧
      List.Perm (fix_lon [((190 : ℚ), (1 : ℚ)), (10, 2)])
        ([((190 : ℚ), (1 : ℚ)), (10, 2)].map (fun p => (adjustLon p.1, p.2)))) :=
  ⟨⟨by decide, by decide⟩,
    fix_lon_normalizes [((190 : ℚ), (1 : ℚ)), (10, 2)] (by decide) (by decide)⟩

/-- C10 counterexample: a grid with the single (distinct) longitude 700 is
mapped by one `fix_lon` pass to longitude 340, which is still above 180, so a
second pass moves it to -20: `fix_lon` is not idempotent on arbitrary grids
with distinct longitudes. -/
theorem fix_lon_not_idempotent :
    fix_lon (fix_lon [((700 : ℚ), (0 : ℚ))]) ≠ fix_lon [((700 : ℚ), (0 : ℚ))] := by
  have h1 : fix_lon [((700 : ℚ), (0 : ℚ))] = [((340 : ℚ), (0 : ℚ))] := by
    norm_num [fix_lon, adjustLon]
  have h2 : fix_lon [((340 : ℚ), (0 : ℚ))] = [((-20 : ℚ), (0 : ℚ))] := by
    norm_num [fix_lon, adjustLon]
  rw [h1, h2]
  intro h
  have := List.head_eq_of_cons_eq h
  norm_num [Prod.ext_iff] at this

/-- C10 (amended): on grids whose longitudes are distinct and lie in [0, 360),
`fix_lon` is idempotent — its output has longitudes in (-180, 180] sorted
ascending, and a second application leaves it unchanged. -/
theorem fix_lon_idempotent {β : Type} (g : LonGrid β)
    (_hnodup : (g.map Prod.fst).Nodup)
    (hrange : ∀ v ∈ g.map Prod.fst, 0 ≤ v ∧ v < 360) :
    fix_lon (fix_lon g) = fix_lon g := by
  have hperm : List.Perm (fix_lon g) (g.map (fun p => (adjustLon p.1, p.2))) :=
    List.perm_insertionSort _ _
  have hle180 : ∀ p ∈ fix_lon g, p.1 ≤ 180 := by
    intro p hp
    have hp2 : p ∈ g.map (fun p => (adjustLon p.1, p.2)) := hperm.mem_iff.mp hp
    rcases List.mem_map.mp hp2 with ⟨q, hq, rfl⟩
    have hq1 : q.1 ∈ g.map Prod.fst := List.mem_map.mpr ⟨q, hq, rfl⟩
    have hr := hrange q.1 hq1
    show adjustLon q.1 ≤ 180
    unfold adjustLon
    split_ifs with h
    · linarith [hr.2]
    · linarith [not_lt.mp h]
  have hmapid : (fix_lon g).map (fun p => (adjustLon p.1, p.2)) = fix_lon g := by
    have : ∀ p ∈ fix_lon g, (fun p : ℚ × β => (adjustLon p.1, p.2)) p = id p := by
      intro p hp
      have h180 := hle180 p hp
      have : adjustLon p.1 = p.1 := by
        unfold adjustLon
        exact if_neg (not_lt.mpr h180)
      simp [this]
    rw [List.map_congr_left this, List.map_id]
  have hsorted : List.Sorted lonLe (fix_lon g) :=
    List.sorted_insertionSort _ _
  calc fix_lon (fix_lon g)
      = List.insertionSort lonLe
          ((fix_lon g).map (fun p => (adjustLon p.1, p.2))) := rfl
    _ = List.insertionSort lonLe (fix_lon g) := by rw [hmapid]
    _ = fix_lon g := hsorted.insertionSort_eq

/-- Witness for C10 (amended): on the witness grid of C2 — longitudes 190 and
10 — a second `fix_lon` pass leaves the normalized grid unchanged. -/
theorem fix_lon_idempotent_witness :
    (([((190 : ℚ), (3 : ℚ)), (10, 4)].map Prod.fst).Nodup ∧
      ∀ v ∈ [((190 : ℚ), (3 : ℚ)), (10, 4)].map Prod.fst, 0 ≤ v ∧ v < 360) ∧
    fix_lon (fix_lon [((190 : ℚ), (3 : ℚ)), (10, 4)]) =
      fix_lon [((190 : ℚ), (3 : ℚ)), (10, 4)] :=
  ⟨⟨by decide, by decide⟩,
    fix_lon_idempotent [((190 : ℚ), (3 : ℚ)), (10, 4)] (by decide) (by decide)⟩

/-! ### Scenario loader time collapse (wildfire_pm25_processing.py 89-93) -/

/-- The pm25 variable of one loaded dataset: either already two-dimensional,
or carrying a time dimension — a list of time coordinate values plus a
time-indexed grid. -/
inductive PMVar : Type
  | noTime (f : PMGrid)
  | withTime (times : List ℚ) (f : ℚ → PMGrid)

/-- Cell values after the time collapse; `none` stands for NaN, which is what
numpy's (nan)mean of an empty slice produces. -/
abbrev NanGrid : Type := ℚ → ℚ → Option ℚ

/-- Embeds `if 'time' in pm25.dims: pm25 = pm25.mean(dim='time')`. The code
has no emptiness check and no error path: `mean(dim='time')` over a length-0
time axis is numpy's mean of an empty slice, which emits a warning and yields
NaN (modelled as `none`) at every cell; over a non-empty axis it is the
arithmetic mean. -/
def collapse_time : PMVar → NanGrid
  | .noTime f => fun la lo => some (f la lo)
  | .withTime ts f => fun la lo =>
      if ts.length = 0 then none
      else some ((ts.map (fun t => f t la lo)).sum / (ts.length : ℚ))

/-- C5 evaluation (code bug): on a dataset whose time dimension is present but
empty, the loader does not fail — `collapse_time` still returns an output
field, whose every cell is NaN (`none`); on a present non-empty time dimension
it returns the arithmetic mean over time, as the claim states. -/
theorem collapse_time_empty_is_silent_nan :
    (∀ la lo, collapse_time (PMVar.withTime [] (fun _ => fun _ _ => 3)) la lo = none) ∧
    collapse_time (PMVar.withTime [0, 1] (fun t => fun _ _ => t)) 5 5 = some (1 / 2) := by
  constructor
  · intro la lo
    rfl
  · norm_num [collapse_time]

/-! ### Regional aggregation (wildfire_pm25_visualization.py 54-61, 292-334) -/

/-- A grid as the regional aggregator sees it: the latitude and longitude
coordinate sequences plus the cell values (valued in an arbitrary ordered
field `α`, so the development can instantiate both `ℝ` with the real cosine
weight and `ℚ` for concrete evaluation). -/
structure RegGrid (α : Type) where
  lats : List ℚ
  lons : List ℚ
  val : ℚ → ℚ → α

/-- One region's fixed bounding box. -/
structure RegionBounds where
  lat_min : ℚ
  lat_max : ℚ
  lon_min : ℚ
  lon_max : ℚ
deriving DecidableEq

/-- The six fixed regions of `wildfire_pm25_visualization.py` (lines 54-61). -/
def regions : List (String × RegionBounds) :=
  [("North America", ⟨15, 70, -170, -50⟩),
   ("South America", ⟨-55, 15, -80, -35⟩),
   ("Europe", ⟨35, 70, -10, 40⟩),
   ("Africa", ⟨-35, 35, -20, 55⟩),
   ("Asia", ⟨0, 55, 60, 150⟩),
   ("Australia", ⟨-45, -10, 110, 155⟩)]

/-- Embeds `data.sel(lat=slice(lat_min, lat_max), lon=slice(lon_min,
lon_max))`: label-based slicing on ascending coordinates keeps exactly the
coordinate values inside the inclusive bounds. -/
def selRegion {α : Type} (data : RegGrid α) (r : RegionBounds) : RegGrid α :=
  { lats := data.lats.filter (fun l => decide (r.lat_min ≤ l ∧ l ≤ r.lat_max)),
    lons := data.lons.filter (fun l => decide (r.lon_min ≤ l ∧ l ≤ r.lon_max)),
    val := data.val }

/-- Embeds `weight_factors = xr.ones_like(region_data) * weights`: the
latitude weight broadcast across longitude, cell by cell. -/
def weight_factors {α : Type} [LinearOrderedField α] (w : ℚ → α) :
    ℚ → ℚ → α :=
  fun la _ => 1 * w la

/-- Embeds the per-(region, dataset) body of `calculate_regional_means`:
`weighted_sum = (region_data * weight_factors).sum(dim=['lat','lon'])`,
`sum_of_weights = weight_factors.sum(dim=['lat','lon'])`, and their quotient.
The latitude weight `w` abstracts `np.cos(np.deg2rad(lat))`. -/
def regionalMean {α : Type} [LinearOrderedField α] (w : ℚ → α)
    (data : RegGrid α) (r : RegionBounds) : α :=
  let region_data := selRegion data r
  let weighted_sum :=
    (region_data.lats.map (fun la =>
      (region_data.lons.map
        (fun lo => region_data.val la lo * weight_factors w la lo)).sum)).sum
  let sum_of_weights :=
    (region_data.lats.map (fun la =>
      (region_data.lons.map (fun lo => weight_factors w la lo)).sum)).sum
  weighted_sum / sum_of_weights

/-- Embeds the full `calculate_regional_means` table: the outer loop over the
six fixed regions and the inner loop over the named datasets. -/
def calculate_regional_means {α : Type} [LinearOrderedField α] (w : ℚ → α)
    (data_dict : List (String × RegGrid α)) :
    List (String × List (String × α)) :=
  regions.map (fun rp =>
    (rp.1, data_dict.map (fun dp => (dp.1, regionalMean w dp.2 rp.2))))

/-- The Regional Aggregator contract exactly as the spec words it: select the
sub-window via inclusive bounds, then return
`weighted_mean = Σ(value·weight) / Σ(weight)` over the selected window with
`weight(lat) = w lat` broadcast across longitude, excluding no values. -/
def specWeightedMean {α : Type} [LinearOrderedField α] (w : ℚ → α)
    (data : RegGrid α) (r : RegionBounds) : α :=
  let lats := data.lats.filter (fun l => decide (r.lat_min ≤ l ∧ l ≤ r.lat_max))
  let lons := data.lons.filter (fun l => decide (r.lon_min ≤ l ∧ l ≤ r.lon_max))
  ((lats.map (fun la => (lons.map (fun lo => data.val la lo * w la)).sum)).sum) /
    ((lats.map (fun la => (lons.map (fun _ => w la)).sum)).sum)

/-- The broadcast-weight computation of the source agrees with the spec's
direct weighted-mean formula, for every weight function. -/
theorem regionalMean_eq_specWeightedMean {α : Type} [LinearOrderedField α]
    (w : ℚ → α) (data : RegGrid α) (r : RegionBounds) :
    regionalMean w data r = specWeightedMean w data r := by
  simp [regionalMean, specWeightedMean, selRegion, weight_factors]

/-- C3: with the latitude weight `cos(lat in radians)` of the source,
`calculate_regional_means` returns, for each of the six fixed regions and
every named grid of the mapping, exactly the spec's latitude-area-weighted
mean `Σ(value·cos(lat)) / Σ(cos(lat))` over the inclusively selected
sub-window, the cosine weight broadcast across longitude and no value
excluded. -/
theorem calculate_regional_means_eq_spec
    (data_dict : List (String × RegGrid ℝ)) :
    calculate_regional_means
        (fun l => Real.cos ((l : ℝ) * Real.pi / 180)) data_dict =
      regions.map (fun rp => (rp.1, data_dict.map (fun dp =>
        (dp.1, specWeightedMean
          (fun l => Real.cos ((l : ℝ) * Real.pi / 180)) dp.2 rp.2)))) := by
  unfold calculate_regional_means
  simp [regionalMean_eq_specWeightedMean]

/-- Every fixed region keeps its latitude bounds strictly inside (-90, 90),
so the cosine weight is positive on every selected latitude. -/
theorem regions_lat_bounds :
    ∀ p ∈ regions, -90 < p.2.lat_min ∧ p.2.lat_max < 90 := by
  decide

/-- The cosine of a latitude strictly between -90 and 90 degrees, converted
to radians, is positive. -/
theorem cos_deg_pos {l : ℚ} (h1 : (-90 : ℚ) < l) (h2 : l < (90 : ℚ)) :
    0 < Real.cos ((l : ℝ) * Real.pi / 180) := by
  have hpi := Real.pi_pos
  have hl1 : (-90 : ℝ) < (l : ℝ) := by exact_mod_cast h1
  have hl2 : ((l : ℝ)) < 90 := by exact_mod_cast h2
  apply Real.cos_pos_of_mem_Ioo
  refine Set.mem_Ioo.mpr ⟨by nlinarith, by nlinarith⟩

/-- Summing a constant over a list multiplies it by the list length. -/
theorem sum_map_fun_const {α β : Type} [LinearOrderedField α] (l : List β)
    (c : α) : (l.map (fun _ => c)).sum = (l.length : α) * c := by
  induction l with
  | nil => simp
  | cons a t ih =>
    simp [ih]
    ring

/-- A sum of positive values over a non-empty list is positive. -/
theorem sum_map_pos {α β : Type} [LinearOrderedField α] {l : List β}
    (f : β → α) (hne : l ≠ []) (h : ∀ x ∈ l, 0 < f x) :
    0 < (l.map f).sum := by
  apply List.sum_pos
  · intro x hx
    rcases List.mem_map.mp hx with ⟨y, hy, rfl⟩
    exact h y hy
  · intro hmap
    exact hne (List.map_eq_nil_iff.mp hmap)

/-- C8: for every one of the six fixed regions and every grid that is
spatially constant with value `c`, the cosine-weighted regional mean equals
`c`, provided the selected sub-window is non-empty. -/
theorem regionalMean_const (nm : String) (r : RegionBounds)
    (hreg : (nm, r) ∈ regions) (g : RegGrid ℝ) (c : ℝ)
    (hconst : ∀ la lo, g.val la lo = c)
    (hlat : (selRegion g r).lats ≠ [])
    (hlon : (selRegion g r).lons ≠ []) :
    regionalMean (fun l => Real.cos ((l : ℝ) * Real.pi / 180)) g r = c := by
  have hb := regions_lat_bounds (nm, r) hreg
  set w : ℚ → ℝ := fun l => Real.cos ((l : ℝ) * Real.pi / 180) with hw
  have hwpos : ∀ la ∈ (selRegion g r).lats, 0 < w la := by
    intro la hla
    have hmem : la ∈ g.lats.filter
        (fun l => decide (r.lat_min ≤ l ∧ l ≤ r.lat_max)) := hla
    have hla2 : r.lat_min ≤ la ∧ la ≤ r.lat_max :=
      of_decide_eq_true (List.mem_filter.mp hmem).2
    exact cos_deg_pos (lt_of_lt_of_le hb.1 hla2.1) (lt_of_le_of_lt hla2.2 hb.2)
  have hMpos : (0 : ℝ) < ((selRegion g r).lons.length : ℝ) := by
    exact_mod_cast List.length_pos.mpr hlon
  simp only [regionalMean, selRegion, weight_factors, one_mul]
  set L := g.lats.filter (fun l => decide (r.lat_min ≤ l ∧ l ≤ r.lat_max))
    with hLdef
  set M := g.lons.filter (fun l => decide (r.lon_min ≤ l ∧ l ≤ r.lon_max))
    with hMdef
  have hlat2 : L ≠ [] := hlat
  have hwpos2 : ∀ la ∈ L, 0 < w la := hwpos
  have hMpos2 : (0 : ℝ) < (M.length : ℝ) := hMpos
  have hnum : (L.map (fun la => (M.map (fun lo => g.val la lo * w la)).sum)).sum
      = c * (L.map (fun la => (M.length : ℝ) * w la)).sum := by
    rw [← List.sum_map_mul_left]
    refine congrArg List.sum (List.map_congr_left ?_)
    intro la _
    have hrow : M.map (fun lo => g.val la lo * w la)
        = M.map (fun _ => c * w la) :=
      List.map_congr_left (fun lo _ => by rw [hconst])
    rw [hrow, sum_map_fun_const]
    ring
  have hden : (L.map (fun la => (M.map (fun _ => w la)).sum)).sum
      = (L.map (fun la => (M.length : ℝ) * w la)).sum := by
    refine congrArg List.sum (List.map_congr_left ?_)
    intro la _
    exact sum_map_fun_const M (w la)
  have hpos : 0 < (L.map (fun la => (M.length : ℝ) * w la)).sum := by
    refine sum_map_pos _ hlat2 ?_
    intro la hla
    exact mul_pos hMpos2 (hwpos2 la hla)
  rw [hnum, hden, mul_div_assoc, div_self (ne_of_gt hpos), mul_one]

/-- Witness for C8: a one-cell grid at latitude 10, longitude 100, constant 5,
aggregated over the Asia region, has cosine-weighted regional mean exactly 5. -/
theorem regionalMean_const_witness :
    (("Asia", (⟨0, 55, 60, 150⟩ : RegionBounds)) ∈ regions ∧
      (selRegion (RegGrid.mk [10] [100] (fun _ _ => (5 : ℝ)))
        ⟨0, 55, 60, 150⟩).lats ≠ [] ∧
      (selRegion (RegGrid.mk [10] [100] (fun _ _ => (5 : ℝ)))
        ⟨0, 55, 60, 150⟩).lons ≠ []) ∧
    regionalMean (fun l => Real.cos ((l : ℝ) * Real.pi / 180))
      (RegGrid.mk [10] [100] (fun _ _ => (5 : ℝ))) ⟨0, 55, 60, 150⟩ = 5 :=
  ⟨⟨by decide, by decide, by decide⟩,
    regionalMean_const "Asia" ⟨0, 55, 60, 150⟩ (by decide)
      (RegGrid.mk [10] [100] (fun _ _ => (5 : ℝ))) 5 (fun _ _ => rfl)
      (by decide) (by decide)⟩

/-! ### Orchestrator (`main`, wildfire_pm25_processing.py 136-378) -/

/-- The five scenario keys of the dataset: the 2000 baseline and the
(2050, 2100) × (RCP4.5, RCP8.5) combinations. -/
inductive Scen : Type
  | s2000
  | s2050_45
  | s2050_85
  | s2100_45
  | s2100_85
deriving DecidableEq

/-- The year of a scenario key. -/
def Scen.year : Scen → Nat
  | .s2000 => 2000
  | .s2050_45 => 2050
  | .s2050_85 => 2050
  | .s2100_45 => 2100
  | .s2100_85 => 2100

/-- The RCP pathway of a scenario key; the 2000 baseline has none. -/
def Scen.pathway : Scen → Option String
  | .s2000 => none
  | .s2050_45 => some "45"
  | .s2050_85 => some "85"
  | .s2100_45 => some "45"
  | .s2100_85 => some "85"

/-- Wildfire attribution: `wildfire_pm25 = baseline_pm25 - nofire_pm25` for
one scenario, given the loaded baseline and no-fire fields per scenario. -/
def wildfire (b n : Scen → PMGrid) (s : Scen) : PMGrid := gridSub (b s) (n s)

/-- The per-scenario solar potential field computed by `main`:
`solar_change_X = calculate_solar_potential_change(wildfire_pm25_X)`. -/
def solar_change (b n : Scen → PMGrid) (s : Scen) : PMGrid :=
  calculate_solar_potential_change (wildfire b n s)

/-- The six PM2.5 temporal difference pairings of `main` (lines 192-197), in
source order: each key together with (later scenario, earlier scenario). -/
def change_pairs : List (String × Scen × Scen) :=
  [("change_2000_to_2050_45", Scen.s2050_45, Scen.s2000),
   ("change_2000_to_2050_85", Scen.s2050_85, Scen.s2000),
   ("change_2050_to_2100_45", Scen.s2100_45, Scen.s2050_45),
   ("change_2050_to_2100_85", Scen.s2100_85, Scen.s2050_85),
   ("change_2000_to_2100_45", Scen.s2100_45, Scen.s2000),
   ("change_2000_to_2100_85", Scen.s2100_85, Scen.s2000)]

/-- The six solar-potential difference pairings of `main` (lines 267-272), in
source order. -/
def solar_diff_pairs : List (String × Scen × Scen) :=
  [("solar_diff_2000_to_2050_45", Scen.s2050_45, Scen.s2000),
   ("solar_diff_2000_to_2050_85", Scen.s2050_85, Scen.s2000),
   ("solar_diff_2050_to_2100_45", Scen.s2100_45, Scen.s2050_45),
   ("solar_diff_2050_to_2100_85", Scen.s2100_85, Scen.s2050_85),
   ("solar_diff_2000_to_2100_45", Scen.s2100_45, Scen.s2000),
   ("solar_diff_2000_to_2100_85", Scen.s2100_85, Scen.s2000)]

/-- Embeds the mapping returned by `main` (lines 345-378), entry for entry in
source order, given the loaded per-scenario baseline and no-fire fields. -/
def main_outputs (b n : Scen → PMGrid) : List (String × PMGrid) :=
  [("baseline_pm25_2000", b .s2000),
   ("baseline_pm25_2050_45", b .s2050_45),
   ("baseline_pm25_2050_85", b .s2050_85),
   ("baseline_pm25_2100_45", b .s2100_45),
   ("baseline_pm25_2100_85", b .s2100_85),
   ("nofire_pm25_2000", n .s2000),
   ("nofire_pm25_2050_45", n .s2050_45),
   ("nofire_pm25_2050_85", n .s2050_85),
   ("nofire_pm25_2100_45", n .s2100_45),
   ("nofire_pm25_2100_85", n .s2100_85),
   ("wildfire_pm25_2000", wildfire b n .s2000),
   ("wildfire_pm25_2050_45", wildfire b n .s2050_45),
   ("wildfire_pm25_2050_85", wildfire b n .s2050_85),
   ("wildfire_pm25_2100_45", wildfire b n .s2100_45),
   ("wildfire_pm25_2100_85", wildfire b n .s2100_85),
   ("change_2000_to_2050_45", gridSub (wildfire b n .s2050_45) (wildfire b n .s2000)),
   ("change_2000_to_2050_85", gridSub (wildfire b n .s2050_85) (wildfire b n .s2000)),
   ("change_2050_to_2100_45", gridSub (wildfire b n .s2100_45) (wildfire b n .s2050_45)),
   ("change_2050_to_2100_85", gridSub (wildfire b n .s2100_85) (wildfire b n .s2050_85)),
   ("change_2000_to_2100_45", gridSub (wildfire b n .s2100_45) (wildfire b n .s2000)),
   ("change_2000_to_2100_85", gridSub (wildfire b n .s2100_85) (wildfire b n .s2000)),
   ("solar_change_2000", solar_change b n .s2000),
   ("solar_change_2050_45", solar_change b n .s2050_45),
   ("solar_change_2050_85", solar_change b n .s2050_85),
   ("solar_change_2100_45", solar_change b n .s2100_45),
   ("solar_change_2100_85", solar_change b n .s2100_85),
   ("solar_diff_2000_to_2050_45", gridSub (solar_change b n .s2050_45) (solar_change b n .s2000)),
   ("solar_diff_2000_to_2050_85", gridSub (solar_change b n .s2050_85) (solar_change b n .s2000)),
   ("solar_diff_2050_to_2100_45", gridSub (solar_change b n .s2100_45) (solar_change b n .s2050_45)),
   ("solar_diff_2050_to_2100_85", gridSub (solar_change b n .s2100_85) (solar_change b n .s2050_85)),
   ("solar_diff_2000_to_2100_45", gridSub (solar_change b n .s2100_45) (solar_change b n .s2000)),
   ("solar_diff_2000_to_2100_85", gridSub (solar_change b n .s2100_85) (solar_change b n .s2000))]

/-- All-zero loaded fields, used to evaluate the orchestrator on a concrete
input. -/
def zeroScen : Scen → PMGrid := fun _ => fun _ _ => 0

/-- The key list of the handoff mapping, as also printed by the `variables`
listing of `main` (lines 309-336). -/
def main_output_keys : List String := (main_outputs zeroScen zeroScen).map Prod.fst

/-- C6 counterexample: the handoff mapping returned by `main` has 32 named
fields, not 31. -/
theorem main_outputs_length_ne_31 :
    ((main_outputs zeroScen zeroScen).map Prod.fst).length ≠ 31 := by
  decide

/-- C6 (amended): on a successful run the orchestrator returns one flat
mapping with exactly 32 distinct named derived fields, independently of the
loaded data. -/
theorem main_outputs_key_count (b n : Scen → PMGrid) :
    ((main_outputs b n).map Prod.fst).length = 32 ∧
    ((main_outputs b n).map Prod.fst).Nodup ∧
    (main_outputs b n).map Prod.fst = main_output_keys := by
  refine ⟨rfl, ?_, rfl⟩
  show main_output_keys.Nodup
  decide

/-- C7: the differencer computes exactly six PM2.5 change fields and six
solar-potential change fields; every pairing subtracts an earlier scenario
from a strictly later one of the same pathway (the 2000 baseline, which has
no pathway split, serving as earlier operand), the covered (earlier year,
later year, pathway) triples are exactly baseline→2050, 2050→2100 and
baseline→2100 for both pathways, no pathway-crossing pair occurs, and each
computed field sits in the orchestrator's mapping as the elementwise
subtraction later-minus-earlier. -/
theorem differencer_pairs_correct (b n : Scen → PMGrid) :
    change_pairs.length = 6 ∧ solar_diff_pairs.length = 6 ∧
    (∀ p ∈ change_pairs, p.2.2.year < p.2.1.year ∧
      (p.2.2.pathway = none ∨ p.2.1.pathway = p.2.2.pathway)) ∧
    (∀ p ∈ solar_diff_pairs, p.2.2.year < p.2.1.year ∧
      (p.2.2.pathway = none ∨ p.2.1.pathway = p.2.2.pathway)) ∧
    change_pairs.map (fun p => (p.2.2.year, p.2.1.year, p.2.1.pathway)) =
      [(2000, 2050, some "45"), (2000, 2050, some "85"),
       (2050, 2100, some "45"), (2050, 2100, some "85"),
       (2000, 2100, some "45"), (2000, 2100, some "85")] ∧
    solar_diff_pairs.map (fun p => (p.2.2.year, p.2.1.year, p.2.1.pathway)) =
      [(2000, 2050, some "45"), (2000, 2050, some "85"),
       (2050, 2100, some "45"), (2050, 2100, some "85"),
       (2000, 2100, some "45"), (2000, 2100, some "85")] ∧
    (∀ p ∈ change_pairs,
      (p.1, gridSub (wildfire b n p.2.1) (wildfire b n p.2.2))
        ∈ main_outputs b n) ∧
    (∀ p ∈ solar_diff_pairs,
      (p.1, gridSub (solar_change b n p.2.1) (solar_change b n p.2.2))
        ∈ main_outputs b n) := by
  refine ⟨rfl, rfl, by decide, by decide, rfl, rfl, ?_, ?_⟩
  · intro p hp
    fin_cases hp <;> simp [main_outputs, change_pairs]
  · intro p hp
    fin_cases hp <;> simp [main_outputs, solar_diff_pairs]

/-- Witness for C7: the first PM2.5 pairing, evaluated on all-zero loaded
fields, is a member of the pairing list and its later-minus-earlier field is
an entry of the orchestrator mapping. -/
theorem differencer_pairs_correct_witness :
    ("change_2000_to_2050_45", Scen.s2050_45, Scen.s2000) ∈ change_pairs ∧
    ("change_2000_to_2050_45",
        gridSub (wildfire zeroScen zeroScen Scen.s2050_45)
          (wildfire zeroScen zeroScen Scen.s2000))
      ∈ main_outputs zeroScen zeroScen :=
  ⟨by decide,
    (differencer_pairs_correct zeroScen zeroScen).2.2.2.2.2.2.1
      ("change_2000_to_2050_45", Scen.s2050_45, Scen.s2000) (by decide)⟩

/-! ### CLI entry point (run_visualization.py 28-271)

Python exceptions are modelled with `Except String`: each figure-producing
step of the `try` block either succeeds with the name of the file it saves or
raises. -/

/-- The default output directory of `run_visualization.py`. -/
def DEFAULT_OUTPUT_DIR : String := "./figures"

/-- Embeds the `__main__` argument handling: `sys.argv[1]` if
`len(sys.argv) > 1`, else the default. `argv` includes the program name at
index 0. -/
def parse_output_dir (argv : List String) : String :=
  if argv.length > 1 then argv.getD 1 DEFAULT_OUTPUT_DIR
  else DEFAULT_OUTPUT_DIR

/-- Runs the steps of the `try` block in order: the first raising step aborts
the whole run (fail-fast, no retry, later steps never execute), otherwise the
list of saved figures is returned. -/
def run_pipeline : List (Except String String) → Except String (List String)
  | [] => Except.ok []
  | Except.error e :: _ => Except.error e
  | Except.ok f :: rest => (run_pipeline rest).map (fun fs => f :: fs)

/-- Embeds `main`: exit code 0 with no error log when every step succeeds;
on an exception, the handler prints `Error during visualization process: ...`
with the trace and returns exit code 1. -/
def viz_main (steps : List (Except String String)) : Nat × List String :=
  match run_pipeline steps with
  | Except.ok _ => (0, [])
  | Except.error e => (1, ["Error during visualization process: " ++ e])

/-- A pipeline whose steps all succeed returns the list of all saved
figures. -/
theorem run_pipeline_ok (steps : List (Except String String))
    (h : ∀ s ∈ steps, ∃ f, s = Except.ok f) :
    ∃ fs, run_pipeline steps = Except.ok fs := by
  induction steps with
  | nil => exact ⟨[], rfl⟩
  | cons s rest ih =>
    rcases h s (List.mem_cons_self s rest) with ⟨f, rfl⟩
    rcases ih (fun t ht => h t (List.mem_cons_of_mem _ ht)) with ⟨fs, hfs⟩
    exact ⟨f :: fs, by simp [run_pipeline, hfs, Except.map]⟩

/-- A pipeline containing a raising step fails with some raised error. -/
theorem run_pipeline_error (steps : List (Except String String)) (e : String)
    (h : Except.error e ∈ steps) :
    ∃ e2, run_pipeline steps = Except.error e2 := by
  induction steps with
  | nil => cases h
  | cons s rest ih =>
    match s with
    | Except.error e3 => exact ⟨e3, rfl⟩
    | Except.ok f =>
      have hrest : Except.error e ∈ rest := by
        rcases List.mem_cons.mp h with h1 | h1
        · cases h1
        · exact h1
      rcases ih hrest with ⟨e2, he2⟩
      refine ⟨e2, ?_⟩
      simp [run_pipeline, he2, Except.map]

/-- C9: the CLI takes a single optional positional argument naming the output
directory and defaults to `./figures`; a run whose steps all succeed exits
with code 0 and no error log, and a run in which any step raises exits with
code 1 and a logged error message. -/
theorem cli_contract :
    (∀ prog : String, parse_output_dir [prog] = DEFAULT_OUTPUT_DIR) ∧
    (∀ (prog d : String) (rest : List String),
      parse_output_dir (prog :: d :: rest) = d) ∧
    (∀ steps, (∀ s ∈ steps, ∃ f, s = Except.ok f) →
      viz_main steps = (0, [])) ∧
    (∀ steps e, Except.error e ∈ steps →
      (viz_main steps).1 = 1 ∧ (viz_main steps).2 ≠ []) := by
  refine ⟨fun prog => rfl, fun prog d rest => ?_, ?_, ?_⟩
  · simp [parse_output_dir]
  · intro steps h
    rcases run_pipeline_ok steps h with ⟨fs, hfs⟩
    simp [viz_main, hfs]
  · intro steps e h
    rcases run_pipeline_error steps e h with ⟨e2, he2⟩
    simp [viz_main, he2]

/-- Witness for C9: with no positional argument the directory defaults to
`./figures`, a given argument overrides it, a two-step all-successful run
exits 0, and a run with a raising step exits 1 with a non-empty error log. -/
theorem cli_contract_witness :
    parse_output_dir ["run_visualization.py"] = DEFAULT_OUTPUT_DIR ∧
    parse_output_dir ["run_visualization.py", "out"] = "out" ∧
    ((∀ s ∈ [Except.ok "a.png", Except.ok "b.png"],
        ∃ f, s = Except.ok (ε := String) f) ∧
      viz_main [Except.ok "a.png", Except.ok "b.png"] = (0, [])) ∧
    (Except.error "boom" ∈ [Except.ok "a.png", Except.error "boom"] ∧
      (viz_main [Except.ok "a.png", Except.error "boom"]).1 = 1 ∧
      (viz_main [Except.ok "a.png", Except.error "boom"]).2 ≠ []) := by
  have hallok : ∀ s ∈ [Except.ok "a.png", Except.ok "b.png"],
      ∃ f, s = Except.ok (ε := String) f := by
    intro s hs
    rcases List.mem_cons.mp hs with h | h
    · exact ⟨"a.png", h⟩
    · rcases List.mem_cons.mp h with h1 | h1
      · exact ⟨"b.png", h1⟩
      · cases h1
  have hboom : Except.error "boom" ∈
      [Except.ok (α := String) "a.png", Except.error "boom"] := by
    simp
  exact ⟨cli_contract.1 "run_visualization.py",
    cli_contract.2.1 "run_visualization.py" "out" [],
    ⟨hallok, cli_contract.2.2.1 [Except.ok "a.png", Except.ok "b.png"] hallok⟩,
    ⟨hboom, cli_contract.2.2.2 [Except.ok "a.png", Except.error "boom"] "boom" hboom⟩⟩

end WildfireSolarLoss
